import Mathlib

/-!
Verification development for the KP chart generator (`src/main.py`).

The numeric core of the program is embedded shallowly over `ℚ`: Python's
float arithmetic on degrees is modelled by exact rational arithmetic, the
float literal `1e-9` by `1/1000000000`, Python's `%` on positive moduli by
`pymod`, `//`/`int(...)` on nonnegative values by `Int.floor`, and
`round(x, 6)` by rounding `x * 10^6` to the nearest integer.  Fallible
operations (list indexing) are modelled with `Option` / defaulted access.
-/

namespace KP

/-- Python `a % b` for floats with positive modulus: `a - b * ⌊a / b⌋`. -/
def pymod (a b : ℚ) : ℚ := a - b * ⌊a / b⌋

/-- Embedding of `normalize_angle` (src/main.py lines 71-75). -/
def normalize_angle (a : ℚ) : ℚ :=
  let r := pymod a 360
  if r < 0 then r + 360 else r

/-- Embedding of the `SIGN_NAMES` table (line 56). -/
def SIGN_NAMES : List String :=
  ["Aries", "Taurus", "Gemini", "Cancer", "Leo", "Virgo", "Libra", "Scorpio",
   "Sagittarius", "Capricorn", "Aquarius", "Pisces"]

/-- Embedding of the `SIGN_RULER` dict (lines 52-55); a key miss (Python
`KeyError`) is modelled by the empty string. -/
def SIGN_RULER (i : ℤ) : String :=
  if i = 1 then "Mars" else if i = 2 then "Venus" else if i = 3 then "Mercury"
  else if i = 4 then "Moon" else if i = 5 then "Sun" else if i = 6 then "Mercury"
  else if i = 7 then "Venus" else if i = 8 then "Mars" else if i = 9 then "Jupiter"
  else if i = 10 then "Saturn" else if i = 11 then "Saturn" else if i = 12 then "Jupiter"
  else ""

/-- Embedding of `NAK_SHAPES` (lines 42-49): the 27 (name, lord) pairs. -/
def NAK_SHAPES : List (String × String) :=
  [("Ashwini", "Ketu"), ("Bharani", "Venus"), ("Krittika", "Sun"), ("Rohini", "Moon"),
   ("Mrigashira", "Mars"), ("Ardra", "Rahu"), ("Punarvasu", "Jupiter"), ("Pushya", "Saturn"),
   ("Ashlesha", "Mercury"), ("Magha", "Ketu"), ("Purva Phalguni", "Venus"),
   ("Uttara Phalguni", "Sun"), ("Hasta", "Moon"), ("Chitra", "Mars"), ("Swati", "Rahu"),
   ("Vishakha", "Jupiter"), ("Anuradha", "Saturn"), ("Jyeshtha", "Mercury"), ("Mula", "Ketu"),
   ("Purva Ashadha", "Venus"), ("Uttara Ashadha", "Sun"), ("Shravana", "Moon"),
   ("Dhanishta", "Mars"), ("Shatabhisha", "Rahu"), ("Purva Bhadrapada", "Jupiter"),
   ("Uttara Bhadrapada", "Saturn"), ("Revati", "Mercury")]

/-- Embedding of `VIM_ORDER` (line 112): the 9-body Vimshottari taxonomy. -/
def VIM_ORDER : List String :=
  ["Ketu", "Venus", "Sun", "Moon", "Mars", "Rahu", "Jupiter", "Saturn", "Mercury"]

/-- Embedding of `VIM_YEARS` (line 113). -/
def VIM_YEARS : List ℚ := [7, 20, 6, 10, 7, 18, 16, 19, 17]

/-- Embedding of `VIM_PROP` (lines 114-115): each weight divided by the total. -/
def VIM_PROP : List ℚ := VIM_YEARS.map (fun y => y / VIM_YEARS.sum)

/-- Embedding of `sign_from_deg` (lines 78-82); returns (sign index, sign name). -/
def sign_from_deg (deg : ℚ) : ℤ × String :=
  let d := normalize_angle deg
  let sign_idx := ⌊d / 30⌋ + 1
  (sign_idx, SIGN_NAMES.getD (sign_idx - 1).toNat "")

/-- Result record of `get_nak_charan_and_pos` (the 6-tuple it returns). -/
structure NakInfo where
  nak_index : ℤ
  nak_name : String
  nak_lord : String
  charan : ℤ
  pos_in_nak : ℚ
  nak_size : ℚ
deriving DecidableEq

/-- Embedding of `get_nak_charan_and_pos` (lines 84-108). -/
def get_nak_charan_and_pos (sid_deg0 : ℚ) : NakInfo :=
  let sid_deg := pymod sid_deg0 360
  let nak_size : ℚ := 360 / 27
  let ni0 := ⌊sid_deg / nak_size⌋ + 1
  let nak_index := if ni0 > 27 then 27 else ni0
  let np := NAK_SHAPES.getD (nak_index - 1).toNat ("", "")
  let nak_start : ℚ := ((nak_index - 1 : ℤ) : ℚ) * nak_size
  let pos0 := sid_deg - nak_start
  let pos_in_nak := if pos0 < 0 then pos0 + nak_size else pos0
  let pada_size := nak_size / 4
  let ch0 := ⌊pos_in_nak / pada_size⌋ + 1
  let charan := if ch0 > 4 then 4 else ch0
  ⟨nak_index, np.1, np.2, charan, pos_in_nak, nak_size⟩

/-- Rotation of the zipped (order, weight) sequence so it begins at `lord`
(lines 117-120 and 132-135 of `find_sub_lord_recursive`). -/
def rotateAt (lord : String) : List (String × ℚ) :=
  let idx := VIM_ORDER.indexOf lord
  (VIM_ORDER.drop idx ++ VIM_ORDER.take idx).zip (VIM_PROP.drop idx ++ VIM_PROP.take idx)

/-- Inner `for lord, prop in zip(order, props)` loop of `find_sub_lord_recursive`
(lines 126-137): walks the rotated sequence with the running cumulative sum;
returns the selected lord together with the rescaled position, or `none` when
the loop finishes without a `break`.  The float literal `1e-9` is modelled as
`1/1000000000`. -/
def selectLord (cur_pos : ℚ) : List (String × ℚ) → ℚ → Option (String × ℚ)
  | [], _ => none
  | (lord, prop) :: rest, cumulative =>
    let next_cum := cumulative + prop
    if cur_pos ≤ next_cum ∨ |cur_pos - 1| < 1 / 1000000000 then
      some (lord, (cur_pos - cumulative) / prop)
    else
      selectLord cur_pos rest next_cum

/-- Outer `for _ in range(levels)` loop of `find_sub_lord_recursive`
(lines 125-137): on a successful inner pass, appends the lord, rescales the
position and rotates the sequence to start at the chosen lord; on an
unsuccessful pass the state is unchanged (Python appends nothing). -/
def subLordLoop : Nat → ℚ → List (String × ℚ) → List String
  | 0, _, _ => []
  | n + 1, cur_pos, seq =>
    match selectLord cur_pos seq 0 with
    | none => subLordLoop n cur_pos seq
    | some (lord, newPos) => lord :: subLordLoop n newPos (rotateAt lord)

/-- Embedding of `find_sub_lord_recursive` (lines 111-139). -/
def find_sub_lord_recursive (pos_in_nak_deg nak_size : ℚ) (nak_lord : String)
    (levels : Nat := 3) : List String :=
  subLordLoop levels (pos_in_nak_deg / nak_size) (rotateAt nak_lord)

/-- The signed angular change computed inside `is_retrograde` (lines 145-149):
the normalized difference, reinterpreted as negative when above 180. -/
def signed_delta (lon1 lon2 : ℚ) : ℚ :=
  let d := normalize_angle (lon2 - lon1)
  if d > 180 then d - 360 else d

/-- Embedding of the numeric core of `is_retrograde` (lines 141-150); the two
ephemeris samples (longitude at jd and at jd + delta) are supplied by the
caller, as the spec's external-interface section prescribes. -/
def is_retrograde (lon1 lon2 : ℚ) : Bool :=
  let d := normalize_angle (lon2 - lon1)
  let d2 := if d > 180 then d - 360 else d
  decide (d2 < 0)

/-- One membership test of the house loop (lines 226-234): does `pdeg` lie in
the circular interval from sidereal cusp `i` to sidereal cusp `(i+1) % 12`? -/
def houseMatch (pdeg ayan : ℚ) (cusp_list : List ℚ) (i : Nat) : Bool :=
  let s := normalize_angle (cusp_list.getD i 0 - ayan)
  let e := normalize_angle (cusp_list.getD ((i + 1) % 12) 0 - ayan)
  if s ≤ e then decide (s ≤ pdeg ∧ pdeg < e) else decide (pdeg ≥ s ∨ pdeg < e)

/-- The `for i in range(12)` house scan (lines 221-234), with `fuel` iterations
remaining and `i` the current index; `none` models `house_no` staying `None`. -/
def houseLoopAux (pdeg ayan : ℚ) (cusp_list : List ℚ) : Nat → Nat → Option Nat
  | 0, _ => none
  | fuel + 1, i =>
    if houseMatch pdeg ayan cusp_list i then some (i + 1)
    else houseLoopAux pdeg ayan cusp_list fuel (i + 1)

/-- Embedding of the house placement logic (lines 221-236), including the
`if house_no is None: house_no = 12` fallback. -/
def locate_house (pdeg ayan : ℚ) (cusp_list : List ℚ) : Nat :=
  (houseLoopAux pdeg ayan cusp_list 12 0).getD 12

/-- House location as the spec describes it: the first index `i` in cusp order
for which the longitude passes the circular-interval membership test, else a
default of house 12. -/
def locate_house_spec (pdeg ayan : ℚ) (cusp_list : List ℚ) : Nat :=
  match (List.range 12).find? (fun i => houseMatch pdeg ayan cusp_list i) with
  | some i => i + 1
  | none => 12

/-- Python `round(x, 6)` (used for `full_degree` / `norm_degree`), modelled as
rounding `x * 10^6` to the nearest integer.  (Python rounds exact half-ulp
ties to even; no result in this development depends on tie behaviour.) -/
def round6 (x : ℚ) : ℚ := ((round (x * 1000000) : ℤ) : ℚ) / 1000000

/-- Names of the 8 computed planets, in the order of the `PLANETS` table
(lines 23-32). -/
def PLANET_NAMES : List String :=
  ["Sun", "Moon", "Mercury", "Venus", "Mars", "Jupiter", "Saturn", "Rahu"]

/-- One ephemeris sample pair for a planet: its tropical longitude now and at
now + delta (the latter feeds the retrograde test). -/
structure PlanetSample where
  name : String
  tropLon : ℚ
  tropLonLater : ℚ
deriving DecidableEq

/-- The per-planet output record assembled at lines 241-259 / 289-307. -/
structure PlanetRecord where
  planet_name : String
  planet_id : Nat
  full_degree : ℚ
  norm_degree : ℚ
  is_retro : Bool
  sign_id : ℤ
  sign_name : String
  sign_lord : String
  house : Nat
  house_lord : String
  nakshatra_id : ℤ
  nakshatra_name : String
  nakshatra_lord : String
  nakshatra_charan : ℤ
  sub_lord : Option String
  sub_sub_lord : Option String
  sub_sub_sub_lord : Option String
deriving DecidableEq

/-- Sidereal longitude of a planet sample (lines 198-199): normalize the
tropical longitude, subtract the ayanamsha, normalize again. -/
def sid_lon_of (ayan : ℚ) (p : PlanetSample) : ℚ :=
  normalize_angle (normalize_angle p.tropLon - ayan)

/-- The 3-level sub-lord chain of a planet sample (line 204). -/
def planetChain (ayan : ℚ) (p : PlanetSample) : List String :=
  let nk := get_nak_charan_and_pos (sid_lon_of ayan p)
  find_sub_lord_recursive nk.pos_in_nak nk.nak_size nk.nak_lord 3

/-- Embedding of the per-planet record assembly (lines 191-259).  The
unguarded `sub_lords[0]` access is modelled by `List.get?` (`none` models the
`IndexError`); the guarded accesses keep their `if len > k` guards. -/
def mkPlanetRecord (ayan : ℚ) (cusp_list : List ℚ) (p : PlanetSample) : PlanetRecord :=
  let sid_lon := sid_lon_of ayan p
  let sg := sign_from_deg sid_lon
  let nk := get_nak_charan_and_pos sid_lon
  let sub_lords := planetChain ayan p
  let retro := is_retrograde p.tropLon p.tropLonLater
  let house_no := locate_house sid_lon ayan cusp_list
  { planet_name := p.name
    planet_id := PLANET_NAMES.indexOf p.name
    full_degree := round6 sid_lon
    norm_degree := round6 (pymod sid_lon 30)
    is_retro := retro
    sign_id := sg.1
    sign_name := sg.2
    sign_lord := SIGN_RULER sg.1
    house := house_no
    house_lord := SIGN_RULER (⌊normalize_angle (cusp_list.getD (house_no - 1) 0 - ayan) / 30⌋ + 1)
    nakshatra_id := nk.nak_index
    nakshatra_name := nk.nak_name
    nakshatra_lord := nk.nak_lord
    nakshatra_charan := nk.charan
    sub_lord := sub_lords.get? 0
    sub_sub_lord := if sub_lords.length > 1 then sub_lords.get? 1 else none
    sub_sub_sub_lord := if sub_lords.length > 2 then sub_lords.get? 2 else none }

/-- Embedding of the Ketu record derivation (lines 262-307): longitude is the
normalized opposite of Rahu's recorded degree, the retrograde flag is copied
from Rahu, and every classification is re-derived from the Ketu longitude. -/
def mkKetuRecord (ayan : ℚ) (cusp_list : List ℚ) (rahu : PlanetRecord) : PlanetRecord :=
  let ketu_sid_lon := normalize_angle (rahu.full_degree + 180)
  let sg := sign_from_deg ketu_sid_lon
  let nk := get_nak_charan_and_pos ketu_sid_lon
  let sub_lords := find_sub_lord_recursive nk.pos_in_nak nk.nak_size nk.nak_lord 3
  let house_no := locate_house ketu_sid_lon ayan cusp_list
  { planet_name := "Ketu"
    planet_id := 100
    full_degree := round6 ketu_sid_lon
    norm_degree := round6 (pymod ketu_sid_lon 30)
    is_retro := rahu.is_retro
    sign_id := sg.1
    sign_name := sg.2
    sign_lord := SIGN_RULER sg.1
    house := house_no
    house_lord := SIGN_RULER (⌊normalize_angle (cusp_list.getD (house_no - 1) 0 - ayan) / 30⌋ + 1)
    nakshatra_id := nk.nak_index
    nakshatra_name := nk.nak_name
    nakshatra_lord := nk.nak_lord
    nakshatra_charan := nk.charan
    sub_lord := sub_lords.get? 0
    sub_sub_lord := if sub_lords.length > 1 then sub_lords.get? 1 else none
    sub_sub_sub_lord := if sub_lords.length > 2 then sub_lords.get? 2 else none }

/-- Embedding of the planet part of `compute_kp_json` (lines 190-307): map the
record assembly over the samples, then append a derived Ketu record when a
Rahu record is present (`next(...)` is `List.find?`). -/
def compute_kp_planets (ayan : ℚ) (cusp_list : List ℚ)
    (planets : List PlanetSample) : List PlanetRecord :=
  let recs := planets.map (mkPlanetRecord ayan cusp_list)
  match recs.find? (fun r => r.planet_name == "Rahu") with
  | some rahu => recs ++ [mkKetuRecord ayan cusp_list rahu]
  | none => recs

/-- A concrete 12-cusp list used for witness checks. -/
def wCusps : List ℚ := [10, 40, 70, 100, 130, 160, 190, 220, 250, 280, 310, 340]

/-- A concrete one-planet ephemeris input (a Rahu sample) for witness checks. -/
def wPlanets : List PlanetSample := [⟨"Rahu", 100, 98⟩]

/-- The Rahu record assembled from `wPlanets` at ayanamsha 0. -/
def wRahu : PlanetRecord := mkPlanetRecord 0 wCusps ⟨"Rahu", 100, 98⟩

/-! ### Angle normalization lemmas -/

theorem pymod_nonneg (a : ℚ) {b : ℚ} (hb : 0 < b) : 0 ≤ pymod a b := by
  unfold pymod
  have h1 : ((⌊a / b⌋ : ℤ) : ℚ) ≤ a / b := Int.floor_le _
  have h2 : b * (a / b) = a := by field_simp
  nlinarith [mul_le_mul_of_nonneg_left h1 hb.le]

theorem pymod_lt (a : ℚ) {b : ℚ} (hb : 0 < b) : pymod a b < b := by
  unfold pymod
  have h1 : a / b < (⌊a / b⌋ : ℚ) + 1 := Int.lt_floor_add_one _
  have h2 : b * (a / b) = a := by field_simp
  nlinarith [mul_lt_mul_of_pos_left h1 hb]

theorem pymod_eq_self {a b : ℚ} (hb : 0 < b) (h0 : 0 ≤ a) (h1 : a < b) :
    pymod a b = a := by
  unfold pymod
  have hf : ⌊a / b⌋ = 0 := by
    rw [Int.floor_eq_zero_iff]
    exact ⟨div_nonneg h0 hb.le, (div_lt_one hb).mpr h1⟩
  rw [hf]
  simp

theorem normalize_angle_eq_pymod (a : ℚ) : normalize_angle a = pymod a 360 := by
  unfold normalize_angle
  rw [if_neg (not_lt.mpr (pymod_nonneg a (by norm_num)))]

theorem normalize_angle_nonneg (a : ℚ) : 0 ≤ normalize_angle a := by
  rw [normalize_angle_eq_pymod]
  exact pymod_nonneg a (by norm_num)

theorem normalize_angle_lt (a : ℚ) : normalize_angle a < 360 := by
  rw [normalize_angle_eq_pymod]
  exact pymod_lt a (by norm_num)

theorem normalize_angle_eq_self {a : ℚ} (h0 : 0 ≤ a) (h1 : a < 360) :
    normalize_angle a = a := by
  rw [normalize_angle_eq_pymod]
  exact pymod_eq_self (by norm_num) h0 h1

/-! ### Sign and nakshatra classification lemmas -/

theorem get_nak_eq (l : ℚ) (h0 : 0 ≤ l) (h1 : l < 360) :
    get_nak_charan_and_pos l =
      { nak_index := ⌊l / (360 / 27 : ℚ)⌋ + 1
        nak_name := (NAK_SHAPES.getD (⌊l / (360 / 27 : ℚ)⌋).toNat ("", "")).1
        nak_lord := (NAK_SHAPES.getD (⌊l / (360 / 27 : ℚ)⌋).toNat ("", "")).2
        charan :=
          if ⌊(l - ((⌊l / (360 / 27 : ℚ)⌋ : ℤ) : ℚ) * (360 / 27)) / (360 / 27 / 4)⌋ + 1 > 4
          then 4
          else ⌊(l - ((⌊l / (360 / 27 : ℚ)⌋ : ℤ) : ℚ) * (360 / 27)) / (360 / 27 / 4)⌋ + 1
        pos_in_nak := l - ((⌊l / (360 / 27 : ℚ)⌋ : ℤ) : ℚ) * (360 / 27)
        nak_size := 360 / 27 } := by
  have hns : (0 : ℚ) < 360 / 27 := by norm_num
  have hpm : pymod l 360 = l := pymod_eq_self (by norm_num) h0 h1
  have hfl : ((⌊l / (360 / 27 : ℚ)⌋ : ℤ) : ℚ) ≤ l / (360 / 27) := Int.floor_le _
  have hfl27 : ⌊l / (360 / 27 : ℚ)⌋ < 27 := by
    rw [Int.floor_lt]
    push_cast
    rw [div_lt_iff hns]
    linarith
  have hclamp : ¬ (⌊l / (360 / 27 : ℚ)⌋ + 1 > 27) := by omega
  have hposnn : ¬ (l - ((⌊l / (360 / 27 : ℚ)⌋ : ℤ) : ℚ) * (360 / 27) < 0) := by
    push_neg
    nlinarith [mul_le_mul_of_nonneg_right hfl hns.le]
  simp only [get_nak_charan_and_pos, hpm, if_neg hclamp, add_sub_cancel_right,
    if_neg hposnn]

theorem nak_lord_mem_vim : ∀ n : Nat, n < 27 → (NAK_SHAPES.getD n ("", "")).2 ∈ VIM_ORDER := by
  decide

theorem get_nak_pos_bounds (l : ℚ) (h0 : 0 ≤ l) (h1 : l < 360) :
    0 ≤ (get_nak_charan_and_pos l).pos_in_nak
    ∧ (get_nak_charan_and_pos l).pos_in_nak < (get_nak_charan_and_pos l).nak_size
    ∧ (get_nak_charan_and_pos l).nak_size = 360 / 27
    ∧ (get_nak_charan_and_pos l).nak_lord ∈ VIM_ORDER := by
  have hns : (0 : ℚ) < 360 / 27 := by norm_num
  have hfl : ((⌊l / (360 / 27 : ℚ)⌋ : ℤ) : ℚ) ≤ l / (360 / 27) := Int.floor_le _
  have hfu : l / (360 / 27 : ℚ) < ((⌊l / (360 / 27 : ℚ)⌋ : ℤ) : ℚ) + 1 :=
    Int.lt_floor_add_one _
  have hfl0 : 0 ≤ ⌊l / (360 / 27 : ℚ)⌋ := Int.floor_nonneg.mpr (div_nonneg h0 hns.le)
  have hfl27 : ⌊l / (360 / 27 : ℚ)⌋ < 27 := by
    rw [Int.floor_lt]
    push_cast
    rw [div_lt_iff hns]
    linarith
  rw [get_nak_eq l h0 h1]
  refine ⟨?_, ?_, rfl, ?_⟩
  · nlinarith [mul_le_mul_of_nonneg_right hfl hns.le]
  · nlinarith [mul_lt_mul_of_pos_right hfu hns]
  · exact nak_lord_mem_vim _ (by omega)

/-- C5: on `[0, 360)` the sign index is `⌊l/30⌋ + 1` and lies in 1..12, and the
nakshatra index is `⌊l/(360/27)⌋ + 1` clamped to at most 27 and lies in 1..27. -/
theorem sign_nak_classification (l : ℚ) (h0 : 0 ≤ l) (h1 : l < 360) :
    (sign_from_deg l).1 = ⌊l / 30⌋ + 1
    ∧ 1 ≤ (sign_from_deg l).1 ∧ (sign_from_deg l).1 ≤ 12
    ∧ (get_nak_charan_and_pos l).nak_index = min (⌊l / (360 / 27 : ℚ)⌋ + 1) 27
    ∧ 1 ≤ (get_nak_charan_and_pos l).nak_index
    ∧ (get_nak_charan_and_pos l).nak_index ≤ 27 := by
  have hs : (sign_from_deg l).1 = ⌊l / 30⌋ + 1 := by
    simp only [sign_from_deg, normalize_angle_eq_self h0 h1]
  have hs0 : 0 ≤ ⌊l / 30⌋ := Int.floor_nonneg.mpr (div_nonneg h0 (by norm_num))
  have hs11 : ⌊l / 30⌋ < 12 := by
    rw [Int.floor_lt]
    push_cast
    rw [div_lt_iff (by norm_num : (0:ℚ) < 30)]
    linarith
  have hfl0 : 0 ≤ ⌊l / (360 / 27 : ℚ)⌋ :=
    Int.floor_nonneg.mpr (div_nonneg h0 (by norm_num))
  have hfl27 : ⌊l / (360 / 27 : ℚ)⌋ < 27 := by
    rw [Int.floor_lt]
    push_cast
    rw [div_lt_iff (by norm_num : (0:ℚ) < 360 / 27)]
    linarith
  have hn : (get_nak_charan_and_pos l).nak_index = ⌊l / (360 / 27 : ℚ)⌋ + 1 := by
    rw [get_nak_eq l h0 h1]
  refine ⟨hs, by omega, by omega, ?_, by omega, by omega⟩
  rw [hn]
  exact (min_eq_left (by omega)).symm

/-- C5 witness: the concrete longitude 356 is classified by the claimed
formulas (sign 12, nakshatra 27). -/
theorem sign_nak_classification_witness :
    (0 : ℚ) ≤ 356 ∧ (356 : ℚ) < 360
    ∧ ((sign_from_deg 356).1 = ⌊(356 : ℚ) / 30⌋ + 1
        ∧ 1 ≤ (sign_from_deg 356).1 ∧ (sign_from_deg 356).1 ≤ 12
        ∧ (get_nak_charan_and_pos 356).nak_index = min (⌊(356 : ℚ) / (360 / 27 : ℚ)⌋ + 1) 27
        ∧ 1 ≤ (get_nak_charan_and_pos 356).nak_index
        ∧ (get_nak_charan_and_pos 356).nak_index ≤ 27) :=
  ⟨by norm_num, by norm_num, sign_nak_classification 356 (by norm_num) (by norm_num)⟩

/-- C4: for every input, `normalize_angle` lands in `[0, 360)` — never 360 or a
negative value — and is idempotent. -/
theorem normalize_angle_range_idem (x : ℚ) :
    0 ≤ normalize_angle x ∧ normalize_angle x < 360 ∧
      normalize_angle (normalize_angle x) = normalize_angle x :=
  ⟨normalize_angle_nonneg x, normalize_angle_lt x,
    normalize_angle_eq_self (normalize_angle_nonneg x) (normalize_angle_lt x)⟩

/-! ### Sub-lord chain lemmas -/

theorem selectLord_mem {p c q : ℚ} {seq : List (String × ℚ)} {l : String}
    (h : selectLord p seq c = some (l, q)) : ∃ w, (l, w) ∈ seq := by
  induction seq generalizing c with
  | nil => simp [selectLord] at h
  | cons a rest ih =>
    obtain ⟨la, wa⟩ := a
    simp only [selectLord] at h
    split at h
    · simp only [Option.some.injEq, Prod.mk.injEq] at h
      obtain ⟨rfl, -⟩ := h
      exact ⟨wa, List.mem_cons_self _ _⟩
    · exact (ih h).imp fun w hw => List.mem_cons_of_mem _ hw

theorem rotateAt_fst_mem {x : String × ℚ} {l : String} (h : x ∈ rotateAt l) :
    x.1 ∈ VIM_ORDER := by
  simp only [rotateAt] at h
  have h1 := (List.of_mem_zip h).1
  rcases List.mem_append.mp h1 with h2 | h2
  · exact List.mem_of_mem_drop h2
  · exact List.mem_of_mem_take h2

theorem subLordLoop_succ_some {p q : ℚ} {seq : List (String × ℚ)} {l : String} (n : Nat)
    (h : selectLord p seq 0 = some (l, q)) :
    subLordLoop (n + 1) p seq = l :: subLordLoop n q (rotateAt l) := by
  rw [subLordLoop, h]

theorem subLordLoop_succ_none {p : ℚ} {seq : List (String × ℚ)} (n : Nat)
    (h : selectLord p seq 0 = none) :
    subLordLoop (n + 1) p seq = subLordLoop n p seq := by
  rw [subLordLoop, h]

theorem selectLord_step_pos {p c w : ℚ} {l : String} {rest : List (String × ℚ)}
    (h : p ≤ c + w ∨ |p - 1| < 1 / 1000000000) :
    selectLord p ((l, w) :: rest) c = some (l, (p - c) / w) := by
  simp only [selectLord]
  rw [if_pos h]

theorem selectLord_step_neg {p c w : ℚ} {l : String} {rest : List (String × ℚ)}
    (h : ¬ (p ≤ c + w ∨ |p - 1| < 1 / 1000000000)) :
    selectLord p ((l, w) :: rest) c = selectLord p rest (c + w) := by
  simp only [selectLord]
  rw [if_neg h]

theorem selectLord_none_of_gt {p : ℚ} (hna : ¬ |p - 1| < 1 / 1000000000) :
    ∀ (seq : List (String × ℚ)) (c : ℚ), (∀ x ∈ seq, 0 ≤ x.2) →
      c + (seq.map Prod.snd).sum < p → selectLord p seq c = none := by
  intro seq
  induction seq with
  | nil => intro c _ _; rfl
  | cons a rest ih =>
    intro c hw hlt
    obtain ⟨la, wa⟩ := a
    simp only [List.map_cons, List.sum_cons] at hlt
    have hsum : 0 ≤ (rest.map Prod.snd).sum := List.sum_nonneg (by
      intro y hy
      obtain ⟨x, hx, rfl⟩ := List.mem_map.mp hy
      exact hw x (List.mem_cons_of_mem _ hx))
    have h1 : ¬ (p ≤ c + wa ∨ |p - 1| < 1 / 1000000000) := by
      push_neg
      exact ⟨by linarith, not_lt.mp hna⟩
    rw [selectLord_step_neg h1]
    exact ih (c + wa) (fun x hx => hw x (List.mem_cons_of_mem _ hx)) (by linarith)

theorem subLordLoop_length (fuel : Nat) : ∀ (p : ℚ) (seq : List (String × ℚ)),
    (subLordLoop fuel p seq).length ≤ fuel := by
  induction fuel with
  | zero => intro p seq; simp [subLordLoop]
  | succ n ih =>
    intro p seq
    cases hsel : selectLord p seq 0 with
    | none =>
      rw [subLordLoop, hsel]
      exact (ih p seq).trans (Nat.le_succ n)
    | some r =>
      obtain ⟨l, q⟩ := r
      rw [subLordLoop_succ_some n hsel]
      simpa using ih q (rotateAt l)

theorem subLordLoop_mem (fuel : Nat) : ∀ (p : ℚ) (seq : List (String × ℚ)),
    (∀ x ∈ seq, x.1 ∈ VIM_ORDER) → ∀ y ∈ subLordLoop fuel p seq, y ∈ VIM_ORDER := by
  induction fuel with
  | zero => intro p seq _ y hy; simp [subLordLoop] at hy
  | succ n ih =>
    intro p seq hseq y hy
    cases hsel : selectLord p seq 0 with
    | none =>
      rw [subLordLoop, hsel] at hy
      exact ih p seq hseq y hy
    | some r =>
      obtain ⟨l, q⟩ := r
      rw [subLordLoop_succ_some n hsel] at hy
      rcases List.mem_cons.mp hy with rfl | hy2
      · obtain ⟨w, hw⟩ := selectLord_mem hsel
        exact hseq (y, w) hw
      · exact ih q (rotateAt l) (fun x hx => rotateAt_fst_mem hx) y hy2

theorem selectLord_isSome (p : ℚ) : ∀ (seq : List (String × ℚ)) (c : ℚ),
    seq ≠ [] → p ≤ c + (seq.map Prod.snd).sum →
    ∃ l q, selectLord p seq c = some (l, q) := by
  intro seq
  induction seq with
  | nil => intro c h _; exact absurd rfl h
  | cons a rest ih =>
    intro c _ hle
    obtain ⟨la, wa⟩ := a
    by_cases hc : p ≤ c + wa ∨ |p - 1| < 1 / 1000000000
    · refine ⟨la, (p - c) / wa, ?_⟩
      simp only [selectLord]
      rw [if_pos hc]
    · cases rest with
      | nil =>
        exfalso
        apply hc
        left
        simp only [List.map_cons, List.map_nil, List.sum_cons, List.sum_nil, add_zero] at hle
        linarith
      | cons b rest2 =>
        have hle2 : p ≤ (c + wa) + ((b :: rest2).map Prod.snd).sum := by
          simp only [List.map_cons, List.sum_cons] at hle ⊢
          linarith
        obtain ⟨l, q, hlq⟩ := ih (c + wa) (by simp) hle2
        refine ⟨l, q, ?_⟩
        simp only [selectLord]
        rw [if_neg hc]
        exact hlq

theorem VIM_PROP_sum : VIM_PROP.sum = 1 := by norm_num [VIM_PROP, VIM_YEARS]

theorem rotate_sum (l : String) : ((rotateAt l).map Prod.snd).sum = 1 := by
  unfold rotateAt
  rw [List.map_snd_zip]
  · rw [List.sum_append, add_comm, ← List.sum_append, List.take_append_drop]
    exact VIM_PROP_sum
  · simp [VIM_ORDER, VIM_PROP, VIM_YEARS]

theorem rotateAt_ne_nil (l : String) : rotateAt l ≠ [] := by
  unfold rotateAt
  intro h
  have hlen := congrArg List.length h
  simp [List.length_zip, VIM_ORDER, VIM_PROP, VIM_YEARS] at hlen
  omega

theorem rotateAt_Ketu : rotateAt "Ketu" =
    [("Ketu", 7/120), ("Venus", 20/120), ("Sun", 6/120), ("Moon", 10/120), ("Mars", 7/120),
     ("Rahu", 18/120), ("Jupiter", 16/120), ("Saturn", 19/120), ("Mercury", 17/120)] := by
  simp [rotateAt, VIM_ORDER, VIM_PROP, VIM_YEARS]
  norm_num

theorem rotateAt_Venus : rotateAt "Venus" =
    [("Venus", 20/120), ("Sun", 6/120), ("Moon", 10/120), ("Mars", 7/120), ("Rahu", 18/120),
     ("Jupiter", 16/120), ("Saturn", 19/120), ("Mercury", 17/120), ("Ketu", 7/120)] := by
  simp [rotateAt, VIM_ORDER, VIM_PROP, VIM_YEARS]
  norm_num

theorem rotateAt_Sun : rotateAt "Sun" =
    [("Sun", 6/120), ("Moon", 10/120), ("Mars", 7/120), ("Rahu", 18/120), ("Jupiter", 16/120),
     ("Saturn", 19/120), ("Mercury", 17/120), ("Ketu", 7/120), ("Venus", 20/120)] := by
  simp [rotateAt, VIM_ORDER, VIM_PROP, VIM_YEARS]
  norm_num

theorem rotateAt_Moon : rotateAt "Moon" =
    [("Moon", 10/120), ("Mars", 7/120), ("Rahu", 18/120), ("Jupiter", 16/120), ("Saturn", 19/120),
     ("Mercury", 17/120), ("Ketu", 7/120), ("Venus", 20/120), ("Sun", 6/120)] := by
  simp [rotateAt, VIM_ORDER, VIM_PROP, VIM_YEARS]
  norm_num

theorem rotateAt_Mars : rotateAt "Mars" =
    [("Mars", 7/120), ("Rahu", 18/120), ("Jupiter", 16/120), ("Saturn", 19/120),
     ("Mercury", 17/120), ("Ketu", 7/120), ("Venus", 20/120), ("Sun", 6/120), ("Moon", 10/120)] := by
  simp [rotateAt, VIM_ORDER, VIM_PROP, VIM_YEARS]
  norm_num

theorem rotateAt_Rahu : rotateAt "Rahu" =
    [("Rahu", 18/120), ("Jupiter", 16/120), ("Saturn", 19/120), ("Mercury", 17/120),
     ("Ketu", 7/120), ("Venus", 20/120), ("Sun", 6/120), ("Moon", 10/120), ("Mars", 7/120)] := by
  simp [rotateAt, VIM_ORDER, VIM_PROP, VIM_YEARS]
  norm_num

theorem rotateAt_Jupiter : rotateAt "Jupiter" =
    [("Jupiter", 16/120), ("Saturn", 19/120), ("Mercury", 17/120), ("Ketu", 7/120),
     ("Venus", 20/120), ("Sun", 6/120), ("Moon", 10/120), ("Mars", 7/120), ("Rahu", 18/120)] := by
  simp [rotateAt, VIM_ORDER, VIM_PROP, VIM_YEARS]
  norm_num

theorem rotateAt_Saturn : rotateAt "Saturn" =
    [("Saturn", 19/120), ("Mercury", 17/120), ("Ketu", 7/120), ("Venus", 20/120), ("Sun", 6/120),
     ("Moon", 10/120), ("Mars", 7/120), ("Rahu", 18/120), ("Jupiter", 16/120)] := by
  simp [rotateAt, VIM_ORDER, VIM_PROP, VIM_YEARS]
  norm_num

theorem rotateAt_Mercury : rotateAt "Mercury" =
    [("Mercury", 17/120), ("Ketu", 7/120), ("Venus", 20/120), ("Sun", 6/120), ("Moon", 10/120),
     ("Mars", 7/120), ("Rahu", 18/120), ("Jupiter", 16/120), ("Saturn", 19/120)] := by
  simp [rotateAt, VIM_ORDER, VIM_PROP, VIM_YEARS]
  norm_num

theorem find_sub_lord_ne_nil {pos size : ℚ} {lord : String}
    (h0 : 0 ≤ pos) (h1 : pos < size) :
    find_sub_lord_recursive pos size lord 3 ≠ [] := by
  have hsize : 0 < size := lt_of_le_of_lt h0 h1
  have hp1 : pos / size < 1 := (div_lt_one hsize).mpr h1
  obtain ⟨l, q, hsel⟩ :=
    selectLord_isSome (pos / size) (rotateAt lord) 0 (rotateAt_ne_nil lord)
      (by rw [rotate_sum]; linarith)
  unfold find_sub_lord_recursive
  rw [show (3 : Nat) = 2 + 1 from rfl, subLordLoop_succ_some 2 hsel]
  simp

/-- C1 counterexample: at offset 7 of a 120-degree span starting at Ketu — a
position strictly inside the span — the chain has length 2, not 3: the level-1
rescaled position is exactly 1, so at level 2 the 1e-9 tolerance fires at the
first interval and the level-3 pass selects nothing. -/
theorem sub_lord_chain_length_cex :
    (0 : ℚ) ≤ 7 ∧ (7 : ℚ) ≤ 120 ∧ (0 : ℚ) < 120 ∧ "Ketu" ∈ VIM_ORDER
    ∧ (find_sub_lord_recursive 7 120 "Ketu" 3).length ≠ 3 := by
  refine ⟨by norm_num, by norm_num, by norm_num, by decide, ?_⟩
  have h1 : selectLord ((7 : ℚ) / 120) (rotateAt "Ketu") 0
      = some ("Ketu", ((7 : ℚ) / 120 - 0) / (7 / 120)) := by
    rw [rotateAt_Ketu]
    exact selectLord_step_pos (Or.inl (by norm_num))
  have e1 : ((7 : ℚ) / 120 - 0) / (7 / 120) = 1 := by norm_num
  have h2 : selectLord (1 : ℚ) (rotateAt "Ketu") 0
      = some ("Ketu", ((1 : ℚ) - 0) / (7 / 120)) := by
    rw [rotateAt_Ketu]
    exact selectLord_step_pos (Or.inr (by norm_num))
  have e2 : ((1 : ℚ) - 0) / (7 / 120) = 120 / 7 := by norm_num
  have h3 : selectLord ((120 : ℚ) / 7) (rotateAt "Ketu") 0 = none := by
    rw [rotateAt_Ketu]
    apply selectLord_none_of_gt (by rw [abs_lt]; push_neg; intro h; norm_num)
    · intro x hx
      fin_cases hx <;> norm_num
    · norm_num
  unfold find_sub_lord_recursive
  rw [show (3 : Nat) = 2 + 1 from rfl, subLordLoop_succ_some 2 h1, e1,
    show (2 : Nat) = 1 + 1 from rfl, subLordLoop_succ_some 1 h2, e2,
    subLordLoop_succ_none 0 h3]
  simp [subLordLoop]

/-- C1 (amended): for every offset in `[0, span]`, positive span and starting
lord in the 9-body taxonomy, `find_sub_lord_recursive` with `levels = 3`
returns an ordered sequence of at most 3 entries, each a valid body name from
the 9-body Vimshottari taxonomy (exactly 3 except when a rescaled position
falls within the 1e-9 tolerance of the top of a span). -/
theorem sub_lord_chain_bounds (pos size : ℚ) (lord : String)
    (hlord : lord ∈ VIM_ORDER) (hsize : 0 < size) (h0 : 0 ≤ pos) (h1 : pos ≤ size) :
    (find_sub_lord_recursive pos size lord 3).length ≤ 3
    ∧ ∀ x ∈ find_sub_lord_recursive pos size lord 3, x ∈ VIM_ORDER := by
  unfold find_sub_lord_recursive
  exact ⟨subLordLoop_length 3 _ _,
    subLordLoop_mem 3 _ _ (fun x hx => rotateAt_fst_mem hx)⟩

/-- C1 witness: the amended statement evaluated at offset 60 of a 120-degree
span starting at Ketu. -/
theorem sub_lord_chain_bounds_witness :
    "Ketu" ∈ VIM_ORDER ∧ (0 : ℚ) < 120 ∧ (0 : ℚ) ≤ 60 ∧ (60 : ℚ) ≤ 120
    ∧ ((find_sub_lord_recursive 60 120 "Ketu" 3).length ≤ 3
        ∧ ∀ x ∈ find_sub_lord_recursive 60 120 "Ketu" 3, x ∈ VIM_ORDER) :=
  ⟨by decide, by norm_num, by norm_num, by norm_num,
    sub_lord_chain_bounds 60 120 "Ketu" (by decide) (by norm_num) (by norm_num) (by norm_num)⟩

theorem head_of_first {lord : String} {w : ℚ} {rest : List (String × ℚ)}
    (hrot : rotateAt lord = (lord, w) :: rest) (hw : 0 ≤ w) (n : Nat) :
    (subLordLoop (n + 1) 0 (rotateAt lord)).head? = some lord := by
  have hsel : selectLord 0 (rotateAt lord) 0 = some (lord, (0 - 0) / w) := by
    rw [hrot]
    exact selectLord_step_pos (Or.inl (by linarith))
  rw [subLordLoop_succ_some n hsel]
  rfl

/-- C3: for every starting lord in the taxonomy and positive span, the chain
at offset 0 begins with the starting lord itself. -/
theorem sub_lord_offset_zero (size : ℚ) (lord : String)
    (hlord : lord ∈ VIM_ORDER) (hsize : 0 < size) :
    (find_sub_lord_recursive 0 size lord 3).head? = some lord := by
  unfold find_sub_lord_recursive
  rw [zero_div, show (3 : Nat) = 2 + 1 from rfl]
  simp only [VIM_ORDER, List.mem_cons, List.not_mem_nil, or_false] at hlord
  rcases hlord with rfl | rfl | rfl | rfl | rfl | rfl | rfl | rfl | rfl
  · exact head_of_first rotateAt_Ketu (by norm_num) 2
  · exact head_of_first rotateAt_Venus (by norm_num) 2
  · exact head_of_first rotateAt_Sun (by norm_num) 2
  · exact head_of_first rotateAt_Moon (by norm_num) 2
  · exact head_of_first rotateAt_Mars (by norm_num) 2
  · exact head_of_first rotateAt_Rahu (by norm_num) 2
  · exact head_of_first rotateAt_Jupiter (by norm_num) 2
  · exact head_of_first rotateAt_Saturn (by norm_num) 2
  · exact head_of_first rotateAt_Mercury (by norm_num) 2

/-- C3 witness: offset 0 of a 120-degree span ruled by Ketu starts at Ketu. -/
theorem sub_lord_offset_zero_witness :
    "Ketu" ∈ VIM_ORDER ∧ (0 : ℚ) < 120
    ∧ (find_sub_lord_recursive 0 120 "Ketu" 3).head? = some "Ketu" :=
  ⟨by decide, by norm_num, sub_lord_offset_zero 120 "Ketu" (by decide) (by norm_num)⟩

/-- C9: for offsets in `[0, span)` the chain is non-empty (so the unguarded
`sub_lords[0]` access in record assembly cannot fail — the record's `sub_lord`
field is never `none`), and a chain shorter than 2 or 3 entries makes the
guarded `sub_sub_lord` / `sub_sub_sub_lord` fields `None` instead of raising. -/
theorem sub_lord_access_safe (pos size : ℚ) (lord : String) (ayan : ℚ)
    (cusp_list : List ℚ) (p : PlanetSample)
    (hlord : lord ∈ VIM_ORDER) (h0 : 0 ≤ pos) (h1 : pos < size) :
    find_sub_lord_recursive pos size lord 3 ≠ []
    ∧ (mkPlanetRecord ayan cusp_list p).sub_lord ≠ none
    ∧ ((planetChain ayan p).length < 2 →
        (mkPlanetRecord ayan cusp_list p).sub_sub_lord = none)
    ∧ ((planetChain ayan p).length < 3 →
        (mkPlanetRecord ayan cusp_list p).sub_sub_sub_lord = none) := by
  have hchain : planetChain ayan p ≠ [] := by
    unfold planetChain
    obtain ⟨hpn, hplt, hsz, hlm⟩ := get_nak_pos_bounds (sid_lon_of ayan p)
      (normalize_angle_nonneg _) (normalize_angle_lt _)
    exact find_sub_lord_ne_nil hpn hplt
  have hsub : (mkPlanetRecord ayan cusp_list p).sub_lord = (planetChain ayan p).get? 0 := rfl
  have hsub2 : (mkPlanetRecord ayan cusp_list p).sub_sub_lord
      = if (planetChain ayan p).length > 1 then (planetChain ayan p).get? 1 else none := rfl
  have hsub3 : (mkPlanetRecord ayan cusp_list p).sub_sub_sub_lord
      = if (planetChain ayan p).length > 2 then (planetChain ayan p).get? 2 else none := rfl
  refine ⟨find_sub_lord_ne_nil h0 h1, ?_, ?_, ?_⟩
  · rw [hsub]
    cases hc : planetChain ayan p with
    | nil => exact absurd hc hchain
    | cons a t => simp
  · intro hlen
    rw [hsub2, if_neg (by omega)]
  · intro hlen
    rw [hsub3, if_neg (by omega)]

/-- C9 witness: the statement evaluated at offset 0 of span 1 with lord Ketu
and a Sun sample at longitude 0. -/
theorem sub_lord_access_safe_witness :
    "Ketu" ∈ VIM_ORDER ∧ (0 : ℚ) ≤ 0 ∧ (0 : ℚ) < 1
    ∧ (find_sub_lord_recursive 0 1 "Ketu" 3 ≠ []
        ∧ (mkPlanetRecord 0 [] ⟨"Sun", 0, 1⟩).sub_lord ≠ none
        ∧ ((planetChain 0 ⟨"Sun", 0, 1⟩).length < 2 →
            (mkPlanetRecord 0 [] ⟨"Sun", 0, 1⟩).sub_sub_lord = none)
        ∧ ((planetChain 0 ⟨"Sun", 0, 1⟩).length < 3 →
            (mkPlanetRecord 0 [] ⟨"Sun", 0, 1⟩).sub_sub_sub_lord = none)) :=
  ⟨by decide, by norm_num, by norm_num,
    sub_lord_access_safe 0 1 "Ketu" 0 [] ⟨"Sun", 0, 1⟩ (by decide) (by norm_num) (by norm_num)⟩

/-! ### Tolerance behaviour at the top boundary (C2) -/

/-- C2 counterexample: at offset equal to the span width (position `p = 1.0`,
which the claim assigns to the last interval of the rotated sequence, Mercury),
the resolved top-level sub-lord is the FIRST entry of the rotated sequence
(Ketu): the `1e-9` tolerance disjunct is evaluated at every step of the scan,
so it already fires at the first interval. -/
theorem sub_lord_tolerance_cex :
    (find_sub_lord_recursive 120 120 "Ketu" 3).head? = some "Ketu"
    ∧ some "Ketu" ≠ (some "Mercury" : Option String) := by
  constructor
  · unfold find_sub_lord_recursive
    rw [show (120 : ℚ) / 120 = 1 by norm_num, show (3 : Nat) = 2 + 1 from rfl]
    have h2 : selectLord (1 : ℚ) (rotateAt "Ketu") 0
        = some ("Ketu", ((1 : ℚ) - 0) / (7 / 120)) := by
      rw [rotateAt_Ketu]
      exact selectLord_step_pos (Or.inr (by norm_num))
    rw [subLordLoop_succ_some 2 h2]
    rfl
  · simp

/-- C2 (amended): at each level the selected lord is the first entry of the
rotated sequence whose cumulative fraction is at least the position `p`,
EXCEPT that when `p` lies within `1e-9` of 1 the tolerance disjunct fires at
the first interval, so the first entry of the rotated sequence is selected.
Consequently, for positions in the last weight interval, the top-level
sub-lord is the last entry (Mercury in the Ketu-first order) only while `p`
stays at least `1e-9` below 1; within the `1e-9` band below the top (and at
the top itself) it is the first entry, Ketu. -/
theorem sub_lord_top_boundary (pos size : ℚ) (hsize : 0 < size)
    (h1 : 103 / 120 < pos / size) (h2 : pos / size ≤ 1) :
    (find_sub_lord_recursive pos size "Ketu" 3).head?
      = some (if pos / size ≤ 1 - 1 / 1000000000 then "Mercury" else "Ketu") := by
  set p := pos / size with hp
  unfold find_sub_lord_recursive
  rw [show (3 : Nat) = 2 + 1 from rfl]
  by_cases hM : p ≤ 1 - 1 / 1000000000
  · rw [if_pos hM]
    have habs : ¬ |p - 1| < 1 / 1000000000 := by
      rw [abs_sub_comm, abs_of_nonneg (by linarith)]
      linarith
    have hsel : ∃ q, selectLord p (rotateAt "Ketu") 0 = some ("Mercury", q) := by
      rw [rotateAt_Ketu]
      iterate 8 rw [selectLord_step_neg (not_or.mpr ⟨not_le.mpr (by linarith), habs⟩)]
      exact ⟨_, selectLord_step_pos (Or.inl (by linarith))⟩
    obtain ⟨q, hsel⟩ := hsel
    rw [subLordLoop_succ_some 2 hsel]
    rfl
  · rw [if_neg hM]
    push_neg at hM
    have hsel : selectLord p (rotateAt "Ketu") 0 = some ("Ketu", (p - 0) / (7 / 120)) := by
      rw [rotateAt_Ketu]
      refine selectLord_step_pos (Or.inr ?_)
      rw [abs_sub_comm, abs_of_nonneg (by linarith)]
      linarith
    rw [subLordLoop_succ_some 2 hsel]
    rfl

/-- C2 witness: at offset 119 of a 120-degree span (position 119/120, inside
the last weight interval and more than 1e-9 below the top) the top-level
sub-lord is Mercury, the last entry of the Ketu-first rotated sequence. -/
theorem sub_lord_top_boundary_witness :
    (0 : ℚ) < 120 ∧ (103 : ℚ) / 120 < 119 / 120 ∧ (119 : ℚ) / 120 ≤ 1
    ∧ (find_sub_lord_recursive 119 120 "Ketu" 3).head? = some "Mercury" := by
  have h := sub_lord_top_boundary 119 120 (by norm_num) (by norm_num) (by norm_num)
  rw [if_pos (by norm_num)] at h
  exact ⟨by norm_num, by norm_num, by norm_num, h⟩

/-! ### House location (C6) -/

theorem houseLoopAux_eq (pdeg ayan : ℚ) (cusp_list : List ℚ) :
    ∀ (fuel i : Nat),
      houseLoopAux pdeg ayan cusp_list fuel i
        = ((List.range' i fuel).find? (fun j => houseMatch pdeg ayan cusp_list j)).map
            (fun j => j + 1) := by
  intro fuel
  induction fuel with
  | zero => intro i; simp [houseLoopAux, List.range']
  | succ n ih =>
    intro i
    rw [houseLoopAux, List.range'_succ]
    by_cases h : houseMatch pdeg ayan cusp_list i
    · rw [if_pos h, List.find?_cons_of_pos _ h]
      rfl
    · rw [if_neg h, List.find?_cons_of_neg _ (by simpa using h), ih (i + 1)]

/-- C6: the house located for a longitude is the first cusp interval (in cusp
order 1..12) whose circular membership test the longitude passes — when
`start <= end` the test is `start <= L < end`, otherwise `L >= start` or
`L < end` — and when no interval matches the result defaults to house 12
instead of failing. -/
theorem house_first_match (pdeg ayan : ℚ) (cusp_list : List ℚ)
    (hdeg0 : 0 ≤ pdeg) (hdeg1 : pdeg < 360) (hlen : cusp_list.length = 12) :
    locate_house pdeg ayan cusp_list = locate_house_spec pdeg ayan cusp_list := by
  unfold locate_house locate_house_spec
  rw [houseLoopAux_eq, List.range_eq_range' 12]
  cases (List.range' 0 12).find? (fun j => houseMatch pdeg ayan cusp_list j) with
  | none => rfl
  | some j => rfl

/-- C6 witness: the concrete scenario cusps `[10, 40, ..., 340]` with target
355 degrees (both classifications give house 12, the wraparound interval). -/
theorem house_first_match_witness :
    (0 : ℚ) ≤ 355 ∧ (355 : ℚ) < 360
    ∧ ([10, 40, 70, 100, 130, 160, 190, 220, 250, 280, 310, 340] : List ℚ).length = 12
    ∧ locate_house 355 0 [10, 40, 70, 100, 130, 160, 190, 220, 250, 280, 310, 340]
        = locate_house_spec 355 0 [10, 40, 70, 100, 130, 160, 190, 220, 250, 280, 310, 340] :=
  ⟨by norm_num, by norm_num, by simp,
    house_first_match 355 0 _ (by norm_num) (by norm_num) (by simp)⟩

/-! ### Retrograde detection (C7, C10) -/

/-- C7: the retrograde flag is exactly the sign test on the reinterpreted
angular change `d = normalize(lon2 - lon1)` (taken as `d - 360` when
`d > 180`), and on the concrete pair (100, 98) the signed change is -2 and the
flag is true. -/
theorem retrograde_signed_change (lon1 lon2 : ℚ) :
    (is_retrograde lon1 lon2 = true ↔ signed_delta lon1 lon2 < 0)
    ∧ signed_delta 100 98 = -2 ∧ is_retrograde 100 98 = true := by
  have hd : ((98 : ℚ) - 100) = -2 := by norm_num
  have hf : ⌊(-2 : ℚ) / 360⌋ = -1 := by norm_num [Int.floor_eq_iff]
  have hn : normalize_angle ((98 : ℚ) - 100) = 358 := by
    rw [normalize_angle_eq_pymod, hd]
    unfold pymod
    rw [hf]
    norm_num
  refine ⟨?_, ?_, ?_⟩
  · simp [is_retrograde, signed_delta]
  · unfold signed_delta
    rw [hn]
    norm_num
  · unfold is_retrograde
    rw [hn]
    norm_num

/-- C10: when the normalized difference of the two samples is exactly 180, the
sign-flip branch (strict `d > 180`) does not apply and the motion is
classified as direct: `is_retrograde` returns false. -/
theorem retrograde_half_circle (lon1 lon2 : ℚ)
    (h : normalize_angle (lon2 - lon1) = 180) :
    is_retrograde lon1 lon2 = false := by
  unfold is_retrograde
  rw [h]
  norm_num

/-- C10 witness: samples 0 and 180 have normalized difference exactly 180 and
are classified as direct motion. -/
theorem retrograde_half_circle_witness :
    normalize_angle ((180 : ℚ) - 0) = 180 ∧ is_retrograde 0 180 = false := by
  have hn : normalize_angle ((180 : ℚ) - 0) = 180 := by
    rw [show ((180 : ℚ) - 0) = 180 by norm_num]
    exact normalize_angle_eq_self (by norm_num) (by norm_num)
  exact ⟨hn, retrograde_half_circle 0 180 hn⟩

/-! ### Ketu derivation (C8) -/

theorem round6_int_div (k : ℤ) : round6 ((k : ℚ) / 1000000) = (k : ℚ) / 1000000 := by
  unfold round6
  rw [div_mul_cancel₀ ((k : ℚ)) (by norm_num : (1000000 : ℚ) ≠ 0), round_intCast]

theorem mkPlanetRecord_full_degree_form (ayan : ℚ) (cusp_list : List ℚ) (p : PlanetSample) :
    ∃ k : ℤ, (mkPlanetRecord ayan cusp_list p).full_degree = (k : ℚ) / 1000000 :=
  ⟨round (sid_lon_of ayan p * 1000000), rfl⟩

theorem normalize_add180_int_div (k : ℤ) :
    ∃ m : ℤ, normalize_angle ((k : ℚ) / 1000000 + 180) = (m : ℚ) / 1000000 := by
  refine ⟨k + 180000000 - 360000000 * ⌊((k : ℚ) / 1000000 + 180) / 360⌋, ?_⟩
  rw [normalize_angle_eq_pymod]
  unfold pymod
  push_cast
  ring

/-- C8: whenever the assembled planet list contains a Rahu record, the output
appends a Ketu record whose longitude is `normalize(rahu.full_degree + 180)`
(the 6-decimal rounding is the identity there, since Rahu's recorded degree is
itself a rounded value), whose retrograde flag is copied from Rahu, and whose
sign, nakshatra and house are re-derived from the Ketu longitude through the
same classifiers. -/
theorem ketu_derivation (ayan : ℚ) (cusp_list : List ℚ) (planets : List PlanetSample)
    (rahu : PlanetRecord)
    (hfind : (planets.map (mkPlanetRecord ayan cusp_list)).find?
        (fun r => r.planet_name == "Rahu") = some rahu) :
    compute_kp_planets ayan cusp_list planets
      = planets.map (mkPlanetRecord ayan cusp_list) ++ [mkKetuRecord ayan cusp_list rahu]
    ∧ (mkKetuRecord ayan cusp_list rahu).full_degree
        = normalize_angle (rahu.full_degree + 180)
    ∧ (mkKetuRecord ayan cusp_list rahu).is_retro = rahu.is_retro
    ∧ (mkKetuRecord ayan cusp_list rahu).sign_id
        = (sign_from_deg (normalize_angle (rahu.full_degree + 180))).1
    ∧ (mkKetuRecord ayan cusp_list rahu).nakshatra_id
        = (get_nak_charan_and_pos (normalize_angle (rahu.full_degree + 180))).nak_index
    ∧ (mkKetuRecord ayan cusp_list rahu).nakshatra_lord
        = (get_nak_charan_and_pos (normalize_angle (rahu.full_degree + 180))).nak_lord
    ∧ (mkKetuRecord ayan cusp_list rahu).house
        = locate_house (normalize_angle (rahu.full_degree + 180)) ayan cusp_list := by
  have hcomp : compute_kp_planets ayan cusp_list planets
      = planets.map (mkPlanetRecord ayan cusp_list) ++ [mkKetuRecord ayan cusp_list rahu] := by
    simp only [compute_kp_planets, hfind]
  have hmem : rahu ∈ planets.map (mkPlanetRecord ayan cusp_list) :=
    List.mem_of_find?_eq_some hfind
  obtain ⟨ps, hps, hpr⟩ := List.mem_map.mp hmem
  obtain ⟨k, hk⟩ : ∃ k : ℤ, rahu.full_degree = (k : ℚ) / 1000000 := by
    obtain ⟨k2, hk2⟩ := mkPlanetRecord_full_degree_form ayan cusp_list ps
    exact ⟨k2, by rw [← hpr]; exact hk2⟩
  have hfd : (mkKetuRecord ayan cusp_list rahu).full_degree
      = normalize_angle (rahu.full_degree + 180) := by
    show round6 (normalize_angle (rahu.full_degree + 180))
        = normalize_angle (rahu.full_degree + 180)
    rw [hk]
    obtain ⟨m, hm⟩ := normalize_add180_int_div k
    rw [hm, round6_int_div]
  exact ⟨hcomp, hfd, rfl, rfl, rfl, rfl, rfl⟩

/-- C8 witness: the concrete chart input `wPlanets` (a single Rahu sample)
produces a Rahu record, and the derived Ketu record satisfies all the claimed
relations. -/
theorem ketu_derivation_witness :
    ((wPlanets.map (mkPlanetRecord 0 wCusps)).find? (fun r => r.planet_name == "Rahu")
        = some wRahu)
    ∧ (compute_kp_planets 0 wCusps wPlanets
          = wPlanets.map (mkPlanetRecord 0 wCusps) ++ [mkKetuRecord 0 wCusps wRahu]
        ∧ (mkKetuRecord 0 wCusps wRahu).full_degree
            = normalize_angle (wRahu.full_degree + 180)
        ∧ (mkKetuRecord 0 wCusps wRahu).is_retro = wRahu.is_retro
        ∧ (mkKetuRecord 0 wCusps wRahu).sign_id
            = (sign_from_deg (normalize_angle (wRahu.full_degree + 180))).1
        ∧ (mkKetuRecord 0 wCusps wRahu).nakshatra_id
            = (get_nak_charan_and_pos (normalize_angle (wRahu.full_degree + 180))).nak_index
        ∧ (mkKetuRecord 0 wCusps wRahu).nakshatra_lord
            = (get_nak_charan_and_pos (normalize_angle (wRahu.full_degree + 180))).nak_lord
        ∧ (mkKetuRecord 0 wCusps wRahu).house
            = locate_house (normalize_angle (wRahu.full_degree + 180)) 0 wCusps) := by
  have hfind : (wPlanets.map (mkPlanetRecord 0 wCusps)).find?
      (fun r => r.planet_name == "Rahu") = some wRahu := rfl
  exact ⟨hfind, ketu_derivation 0 wCusps wPlanets wRahu hfind⟩

end KP
